import Mathlib

/-!
Verification of the Claude subscription-token pool subsystem of the ATC
repository.

The repository ships the React frontend (src/frontend); the FastAPI backend
that implements the token store, pool allocator and stats aggregator is not
part of the source tree.  Definitions for those backend operations are
therefore modelled from the specification (each such definition carries a
doc comment starting with "Modelled from the spec:").  Frontend logic that
does live in the tree — the `apiFetch` wrapper in
src/frontend/src/utils/api.ts and the pool-status banner condition in
src/frontend/src/components/PoolStatus.tsx — is embedded directly from the
source.
-/

/-- Token status, from src/frontend/src/types/claudeToken.ts
(`ClaudeTokenStatus`): one of active, invalid, rate_limited, expired. -/
inductive TokenStatus where
  | active
  | invalid
  | rate_limited
  | expired
deriving DecidableEq, Repr

/-- Modelled from the spec: a stored Token record (§3 Data Model), matching
the field list of the frontend `ClaudeToken` view plus the stored secret.
Timestamps are modelled as natural numbers (wall-clock instants). -/
structure Token where
  id : Nat
  user_id : Nat
  name : String
  secret : String
  status : TokenStatus
  request_count : Nat
  last_used_at : Option Nat
  rate_limit_reset_at : Option Nat
  last_error : Option String
deriving DecidableEq, Repr

/-- Modelled from the spec: eligibility of a single token (§4.1):
`status = active` OR (`status = rate_limited` AND the reset timestamp has
elapsed, i.e. is ≤ the current wall-clock time). -/
def eligible (now : Nat) (t : Token) : Bool :=
  match t.status, t.rate_limit_reset_at with
  | .active, _ => true
  | .rate_limited, some r => decide (r ≤ now)
  | _, _ => false

/-- Modelled from the spec: `list_eligible()` (§4.1) returns all tokens of
the pool that are eligible at the current time. -/
def list_eligible (now : Nat) (pool : List Token) : List Token :=
  pool.filter (eligible now)

/-- Sort key for the rotation policy: `none` (never used) sorts before every
`some` timestamp, and `some` timestamps sort by value.  Encoded into `Nat`
by mapping `none ↦ 0` and `some n ↦ n + 1`. -/
def lastUsedKey : Option Nat → Nat
  | none => 0
  | some n => n + 1

/-- Modelled from the spec: pick the token with the oldest `last_used_at`
(nulls — never used — sort first); the earliest list entry wins ties
(§4.3 selection policy leaves the tie-break among equal timestamps open). -/
def pickOldest : List Token → Option Token
  | [] => none
  | t :: ts =>
    match pickOldest ts with
    | none => some t
    | some u =>
      if lastUsedKey t.last_used_at ≤ lastUsedKey u.last_used_at then some t else some u

/-- Allocation errors of the pool allocator (§4.3, §7). -/
inductive AcquireError where
  | PoolExhausted
  | TokenUnavailable
deriving DecidableEq, Repr

/-- Modelled from the spec: `acquire(requested_token_id?)` (§4.3).  With an
explicit id the allocator bypasses rotation and returns that token if
eligible, else fails with `TokenUnavailable`; with no id it picks the
eligible token with the oldest `last_used_at`, failing with `PoolExhausted`
when no eligible token exists. -/
def acquire (now : Nat) (pool : List Token) (requested : Option Nat) :
    Except AcquireError Token :=
  match requested with
  | some id =>
    match pool.find? (fun t => t.id == id) with
    | none => .error .TokenUnavailable
    | some t => if eligible now t then .ok t else .error .TokenUnavailable
  | none =>
    match pickOldest (list_eligible now pool) with
    | some t => .ok t
    | none => .error .PoolExhausted

/-- Outcome a caller reports after using a token (§4.3): success,
rate-limited (with an optional server-provided reset hint), or invalid
(with an error message). -/
inductive Outcome where
  | success
  | rate_limited (reset_hint : Option Nat)
  | invalid (err : String)
deriving DecidableEq, Repr

/-- Modelled from the spec: default rate-limit backoff when no reset hint is
provided — a fixed +1 hour (§4.3, "else a fixed default backoff, e.g.,
+1 hour"), in seconds. -/
def defaultBackoff : Nat := 3600

/-- Modelled from the spec: the per-token state update applied by the Health
Monitor on an outcome report (§4.3).  On success: increment usage count, set
`last_used_at = now`, clear last error.  On rate_limited: set status and
reset timestamp (hint, else now + default backoff).  On invalid: set status
to invalid and record the error message. -/
def applyOutcome (now : Nat) (o : Outcome) (t : Token) : Token :=
  match o with
  | .success =>
    { t with
      request_count := t.request_count + 1
      last_used_at := some now
      last_error := none }
  | .rate_limited hint =>
    { t with
      status := .rate_limited
      rate_limit_reset_at := some (hint.getD (now + defaultBackoff)) }
  | .invalid err =>
    { t with status := .invalid, last_error := some err }

/-- Modelled from the spec: `report(token_id, outcome)` (§4.3) updates the
store record of the token with the given id via `applyOutcome`. -/
def report (now : Nat) (tokenId : Nat) (o : Outcome) (pool : List Token) :
    List Token :=
  pool.map (fun t => if t.id == tokenId then applyOutcome now o t else t)

/-- Look a token up in the store by id. -/
def findToken (tokenId : Nat) (pool : List Token) : Option Token :=
  pool.find? (fun t => t.id == tokenId)

/-- Modelled from the spec: the subscription-token shape check (§4.1 create
validation).  Per the UI hint in ClaudeTokenSettings
(src/frontend/src/components/GenerateContentButton.tsx pack): a subscription
token "Must start with sk-ant-sid (from claude setup-token)", while API keys
start with sk-ant-api and are rejected. -/
def subscription_token_shape (s : String) : Bool :=
  "sk-ant-sid".data.isPrefixOf s.data

/-- API-key-shaped credential: starts with "sk-ant-api" (the shape that
`create` must reject per §4.1 / §8). -/
def api_key_shape (s : String) : Bool :=
  "sk-ant-api".data.isPrefixOf s.data

/-- Creation errors of the token store (§4.1, §7). -/
inductive CreateError where
  | InvalidCredentialFormat
  | AlreadyExists
  | ValidationFailed
deriving DecidableEq, Repr

/-- Modelled from the spec: the fresh Token record persisted by `create`
(§3 lifecycle): active, zero usage, never used, no rate-limit state, no
error. -/
def mkToken (freshId owner : Nat) (nm secret : String) : Token :=
  { id := freshId
    user_id := owner
    name := nm
    secret := secret
    status := .active
    request_count := 0
    last_used_at := none
    rate_limit_reset_at := none
    last_error := none }

/-- Modelled from the spec: `create(owner, name, secret)` (§4.1, §4.2).
The secret format is validated first, before any call to the external
credential validator (`validate` stands for that live network check, §4.2);
a malformed shape fails with `InvalidCredentialFormat` and nothing is
persisted.  Then the 1:1 owner relationship is enforced (`AlreadyExists`),
then the live validation runs, and only then is the token persisted. -/
def create (validate : String → Bool) (owner : Nat) (nm secret : String)
    (freshId : Nat) (pool : List Token) : Except CreateError (List Token) :=
  if ¬ subscription_token_shape secret then .error .InvalidCredentialFormat
  else if pool.any (fun t => t.user_id == owner) then .error .AlreadyExists
  else if ¬ validate secret then .error .ValidationFailed
  else .ok (pool ++ [mkToken freshId owner nm secret])

/-- Modelled from the spec: the truncated preview string of a secret (§3,
"never returned in full to callers (only a truncated preview string)"):
the first 9 characters followed by an ellipsis redaction marker.  The cut
lies strictly inside the mandatory "sk-ant-sid" prefix of a create-accepted
secret, so the preview of any accepted secret can never reproduce the full
value (§3, §8). -/
def token_preview_of (s : String) : String :=
  String.mk (s.data.take 9 ++ ['…'])

/-- The secret-free token view returned by read operations, from
src/frontend/src/types/claudeToken.ts (`ClaudeToken`): it carries a
`token_preview` field and no secret field. -/
structure TokenView where
  id : Nat
  user_id : Nat
  name : String
  status : TokenStatus
  token_preview : String
  request_count : Nat
  last_used_at : Option Nat
  rate_limit_reset_at : Option Nat
  last_error : Option String
deriving DecidableEq, Repr

/-- Modelled from the spec: the secret-free view of a stored token (§3:
read operations never expose the secret, only the truncated preview). -/
def toView (t : Token) : TokenView :=
  { id := t.id
    user_id := t.user_id
    name := t.name
    status := t.status
    token_preview := token_preview_of t.secret
    request_count := t.request_count
    last_used_at := t.last_used_at
    rate_limit_reset_at := t.rate_limit_reset_at
    last_error := t.last_error }

/-- Modelled from the spec: `get_by_owner(owner)` (§4.1) — at most one token
per owner, returned as the secret-free view. -/
def get_by_owner (owner : Nat) (pool : List Token) : Option TokenView :=
  (pool.find? (fun t => t.user_id == owner)).map toView

/-- Pool health, from src/frontend/src/types/claudeToken.ts
(`PoolHealth`). -/
inductive PoolHealth where
  | healthy
  | limited
  | exhausted
deriving DecidableEq, Repr

/-- Number of tokens with status active. -/
def countActive (pool : List Token) : Nat :=
  (pool.filter (fun t => t.status == TokenStatus.active)).length

/-- Number of tokens with status rate_limited. -/
def countRateLimited (pool : List Token) : Nat :=
  (pool.filter (fun t => t.status == TokenStatus.rate_limited)).length

/-- Modelled from the spec: `pool_health` (§4.4): healthy if at least one
active token exists and the rate-limited fraction is below the 50%
threshold; exhausted if zero tokens are currently eligible; limited
otherwise. -/
def pool_health (now : Nat) (pool : List Token) : PoolHealth :=
  if list_eligible now pool = [] then .exhausted
  else if 0 < countActive pool ∧ 2 * countRateLimited pool < pool.length then .healthy
  else .limited

/-- From src/frontend/src/components/PoolStatus.tsx lines 96–100: the
pool-status banner renders the "The pool needs contributors!" call-to-action
span exactly when `status.pool_health === 'exhausted'`. -/
def showsPoolNeedsContributors (h : PoolHealth) : Bool :=
  match h with
  | .exhausted => true
  | _ => false

/-- The call-to-action text rendered by PoolStatus.tsx when the pool is
exhausted. -/
def poolNeedsContributorsText : String := "The pool needs contributors!"

/-- Clamp a rational to the interval [0, 1]. -/
def clamp01 (x : ℚ) : ℚ := max 0 (min 1 x)

/-- Squared coefficient of variation of a list of counts:
variance / mean², with population variance. -/
def cvSquared (counts : List Nat) : ℚ :=
  let n : ℚ := counts.length
  let mean : ℚ := (counts.map (fun c => (c : ℚ))).sum / n
  ((counts.map (fun c => ((c : ℚ) - mean) ^ 2)).sum / n) / mean ^ 2

/-- Modelled from the spec: `fairness_score` (§4.4) — a normalized [0,1]
measure of how evenly request counts are distributed, computed as
1 − (coefficient of variation / normalization constant) and clamped to
[0,1].  The spec leaves the exact formula an implementation choice; here the
squared coefficient of variation is normalized by its maximum n − 1
(attained when one token carries all the usage), so all-equal usage scores 1
and fully concentrated usage scores 0.  Degenerate pools (at most one
contributor, or zero total usage) score 1. -/
def fairness_score (counts : List Nat) : ℚ :=
  if counts.length ≤ 1 then 1
  else if (counts.map (fun c => (c : ℚ))).sum = 0 then 1
  else clamp01 (1 - cvSquared counts / ((counts.length : ℚ) - 1))

/-- An HTTP response as observed by `apiFetch`
(src/frontend/src/utils/api.ts): its status code, the parsed JSON body
(`none` when the body does not parse as JSON), and the body's string
`detail` field (`none` when the body is not a JSON object carrying one). -/
structure HttpResponse (α : Type) where
  status : Nat
  json : Option α
  detail : Option String

/-- `Response.ok` of the fetch API: status in the inclusive range
200–299. -/
def responseOk (status : Nat) : Bool :=
  decide (200 ≤ status) && decide (status ≤ 299)

/-- The fallback error message built by apiFetch
(src/frontend/src/utils/api.ts line 53). -/
def fallbackMessage (status : Nat) : String :=
  "Request failed with status " ++ toString status

/-- The error message chosen by apiFetch (api.ts lines 51–53):
`data?.detail || fallback`.  JavaScript `||` treats the empty string as
falsy, so an empty `detail` string also falls back. -/
def errorMessage (status : Nat) (detail : Option String) : String :=
  match detail with
  | some d => if d = "" then fallbackMessage status else d
  | none => fallbackMessage status

/-- Result of an `apiFetch` call (src/frontend/src/utils/api.ts):
resolves with the parsed body (`success`), rejects with an `ApiError`
carrying a message and the HTTP status (`apiError`), or rejects with the
JSON parse error of `response.json()` on an ok response whose body is not
JSON (`jsonError`). -/
inductive FetchOutcome (α : Type) where
  | success (body : Option α)
  | apiError (message : String) (status : Nat)
  | jsonError
deriving DecidableEq, Repr

/-- Shallow embedding of `apiFetch` (src/frontend/src/utils/api.ts lines
19–62), abstracting the network call as the received `HttpResponse`:
a non-ok response throws `ApiError(detail-or-fallback, status)`; an ok 204
response resolves with `undefined`; any other ok response resolves with the
parsed JSON body (or rejects with the parse error when the body is not
JSON). -/
def apiFetch {α : Type} (r : HttpResponse α) : FetchOutcome α :=
  if responseOk r.status = false then
    .apiError (errorMessage r.status r.detail) r.status
  else if r.status = 204 then .success none
  else
    match r.json with
    | some v => .success (some v)
    | none => .jsonError

/-! ## Helper lemmas -/

theorem eligible_iff (now : Nat) (t : Token) :
    eligible now t = true ↔
      (t.status = .active ∨
        (t.status = .rate_limited ∧ ∃ r, t.rate_limit_reset_at = some r ∧ r ≤ now)) := by
  unfold eligible
  cases hs : t.status <;> cases hr : t.rate_limit_reset_at <;> simp [hs, hr]

theorem pickOldest_cons (t : Token) (ts : List Token) :
    pickOldest (t :: ts) =
      match pickOldest ts with
      | none => some t
      | some u =>
        if lastUsedKey t.last_used_at ≤ lastUsedKey u.last_used_at then some t
        else some u := rfl

theorem pickOldest_of_ne_nil {l : List Token} (h : l ≠ []) :
    ∃ t, pickOldest l = some t := by
  cases l with
  | nil => exact absurd rfl h
  | cons t ts =>
    cases hp : pickOldest ts with
    | none => exact ⟨t, by simp [pickOldest_cons, hp]⟩
    | some u =>
      by_cases hle : lastUsedKey t.last_used_at ≤ lastUsedKey u.last_used_at
      · exact ⟨t, by simp [pickOldest_cons, hp, hle]⟩
      · exact ⟨u, by simp [pickOldest_cons, hp, hle]⟩

theorem pickOldest_eq_none {l : List Token} (h : pickOldest l = none) : l = [] := by
  cases l with
  | nil => rfl
  | cons a ts =>
    rcases pickOldest_of_ne_nil (l := a :: ts) (by simp) with ⟨t, ht⟩
    rw [ht] at h
    exact Option.noConfusion h

theorem pickOldest_mem {l : List Token} {t : Token} (h : pickOldest l = some t) :
    t ∈ l := by
  induction l with
  | nil => simp [pickOldest] at h
  | cons a ts ih =>
    cases hp : pickOldest ts with
    | none =>
      simp only [pickOldest_cons, hp, Option.some.injEq] at h
      subst h
      exact List.mem_cons_self a ts
    | some u =>
      simp only [pickOldest_cons, hp] at h
      by_cases hle : lastUsedKey a.last_used_at ≤ lastUsedKey u.last_used_at
      · rw [if_pos hle, Option.some.injEq] at h
        subst h
        exact List.mem_cons_self a ts
      · rw [if_neg hle, Option.some.injEq] at h
        subst h
        exact List.mem_cons_of_mem a (ih hp)

theorem pickOldest_min {l : List Token} {t : Token} (h : pickOldest l = some t) :
    ∀ u ∈ l, lastUsedKey t.last_used_at ≤ lastUsedKey u.last_used_at := by
  induction l generalizing t with
  | nil => simp [pickOldest] at h
  | cons a ts ih =>
    intro u hu
    cases hp : pickOldest ts with
    | none =>
      have hts := pickOldest_eq_none hp
      subst hts
      simp only [pickOldest_cons, hp, Option.some.injEq] at h
      subst h
      rcases List.mem_cons.mp hu with h1 | h1
      · subst h1; exact Nat.le_refl _
      · simp at h1
    | some v =>
      simp only [pickOldest_cons, hp] at h
      by_cases hle : lastUsedKey a.last_used_at ≤ lastUsedKey v.last_used_at
      · rw [if_pos hle, Option.some.injEq] at h
        subst h
        rcases List.mem_cons.mp hu with h1 | h1
        · subst h1; exact Nat.le_refl _
        · exact Nat.le_trans hle (ih hp u h1)
      · rw [if_neg hle, Option.some.injEq] at h
        subst h
        rcases List.mem_cons.mp hu with h1 | h1
        · subst h1; exact le_of_not_le hle
        · exact ih hp u h1

theorem lastUsedKey_eq_zero {x : Option Nat} : lastUsedKey x = 0 ↔ x = none := by
  cases x <;> simp [lastUsedKey]

theorem acquire_none_eq (now : Nat) (pool : List Token) :
    acquire now pool none =
      match pickOldest (list_eligible now pool) with
      | some t => .ok t
      | none => .error .PoolExhausted := rfl

theorem list_eligible_ne_nil_of_active {now : Nat} {pool : List Token}
    (h : 0 < countActive pool) : list_eligible now pool ≠ [] := by
  unfold countActive at h
  obtain ⟨t, ht⟩ := List.exists_mem_of_ne_nil _ (List.length_pos.mp h)
  have htp := List.mem_filter.mp ht
  have hs : t.status = .active := by simpa using htp.2
  have hmem : t ∈ list_eligible now pool :=
    List.mem_filter.mpr ⟨htp.1, by simp [eligible, hs]⟩
  intro hnil
  rw [hnil] at hmem
  simp at hmem

/-! ## Claim theorems -/

/-- C1: for every `acquire()` call with no requested token id and a
non-empty eligible set, the allocator returns an eligible token whose
`last_used_at` is oldest (with `none` — never used — sorting before every
`some` timestamp): the returned token's sort key is minimal over all
eligible tokens, its timestamp is ≤ every other eligible token's timestamp,
and it is never-used whenever any eligible never-used token exists. -/
theorem acquire_rotation_picks_oldest (now : Nat) (pool : List Token)
    (h : list_eligible now pool ≠ []) :
    ∃ t, acquire now pool none = .ok t ∧
      t ∈ list_eligible now pool ∧
      (∀ u ∈ list_eligible now pool,
        lastUsedKey t.last_used_at ≤ lastUsedKey u.last_used_at) ∧
      (∀ u ∈ list_eligible now pool, ∀ a b,
        t.last_used_at = some a → u.last_used_at = some b → a ≤ b) ∧
      ((∃ u ∈ list_eligible now pool, u.last_used_at = none) →
        t.last_used_at = none) := by
  rcases pickOldest_of_ne_nil h with ⟨t, ht⟩
  refine ⟨t, ?_, pickOldest_mem ht, pickOldest_min ht, ?_, ?_⟩
  · simp [acquire_none_eq, ht]
  · intro u hu a b hta hub
    have hk := pickOldest_min ht u hu
    rw [hta, hub] at hk
    simpa [lastUsedKey] using hk
  · rintro ⟨u, hu, hnone⟩
    have hk := pickOldest_min ht u hu
    rw [hnone] at hk
    have h0 : lastUsedKey t.last_used_at = 0 := by
      simpa [lastUsedKey] using Nat.le_zero.mp (by simpa [lastUsedKey] using hk)
    exact lastUsedKey_eq_zero.mp h0

/-- C2: `list_eligible()` returns exactly the tokens of the pool with
status active, plus those with status rate_limited whose reset timestamp
has elapsed; rate_limited tokens with a future (or missing) reset timestamp
are excluded, and an elapsed rate_limited token is included even though its
status field still reads rate_limited (no background flip needed). -/
theorem list_eligible_characterization (now : Nat) (pool : List Token) (t : Token) :
    t ∈ list_eligible now pool ↔
      t ∈ pool ∧
        (t.status = .active ∨
          (t.status = .rate_limited ∧
            ∃ r, t.rate_limit_reset_at = some r ∧ r ≤ now)) := by
  rw [list_eligible, List.mem_filter, eligible_iff]

/-- C4: whenever the eligible set is empty (in particular for a zero-token
pool), `acquire()` with no requested id fails with `PoolExhausted`, the pool
health is `exhausted`, and (from PoolStatus.tsx lines 96–100) the UI shows
the "The pool needs contributors!" messaging exactly when the pool health is
exhausted. -/
theorem acquire_pool_exhausted (now : Nat) (pool : List Token)
    (h : list_eligible now pool = []) :
    acquire now pool none = .error .PoolExhausted ∧
      pool_health now pool = .exhausted ∧
      (∀ ph : PoolHealth, showsPoolNeedsContributors ph = true ↔ ph = .exhausted) := by
  refine ⟨?_, ?_, ?_⟩
  · simp [acquire_none_eq, h, pickOldest]
  · simp [pool_health, h]
  · intro ph
    cases ph <;> simp [showsPoolNeedsContributors]

/-- C5: `acquire(requested_token_id)` with an explicit id bypasses rotation:
when the id resolves to a stored token, it returns exactly that token if it
is eligible and fails with `TokenUnavailable` if it is not. -/
theorem acquire_explicit_request (now id : Nat) (pool : List Token) (t : Token)
    (h : findToken id pool = some t) :
    (eligible now t = true → acquire now pool (some id) = .ok t) ∧
      (eligible now t = false → acquire now pool (some id) = .error .TokenUnavailable) := by
  unfold findToken at h
  constructor <;> intro he <;> simp [acquire, h, he]

theorem applyOutcome_id (now : Nat) (o : Outcome) (t : Token) :
    (applyOutcome now o t).id = t.id := by
  cases o <;> rfl

theorem report_find (now tokenId : Nat) (o : Outcome) (pool : List Token) :
    findToken tokenId (report now tokenId o pool) =
      (findToken tokenId pool).map
        (fun t => if t.id == tokenId then applyOutcome now o t else t) := by
  unfold findToken report
  rw [List.find?_map]
  have hfg : ((fun t : Token => t.id == tokenId) ∘
      (fun t => if t.id == tokenId then applyOutcome now o t else t)) =
      (fun t : Token => t.id == tokenId) := by
    funext t
    simp only [Function.comp]
    cases h : (t.id == tokenId) <;> simp [h, applyOutcome_id]
  rw [hfg]

/-- C3: `report(token_id, success)` increments the token's `request_count`
by exactly 1, sets `last_used_at` to the time of the call, and clears the
last error; reporting success twice increments `request_count` by exactly 2
and leaves `last_used_at` at the second call's timestamp. -/
theorem report_success_updates (now1 now2 tokenId : Nat) (pool : List Token)
    (t : Token) (h : findToken tokenId pool = some t) :
    (∃ t1, findToken tokenId (report now1 tokenId .success pool) = some t1 ∧
        t1.request_count = t.request_count + 1 ∧
        t1.last_used_at = some now1 ∧ t1.last_error = none) ∧
      ∃ t2, findToken tokenId
          (report now2 tokenId .success (report now1 tokenId .success pool)) =
            some t2 ∧
        t2.request_count = t.request_count + 2 ∧
        t2.last_used_at = some now2 ∧ t2.last_error = none := by
  have h0 : pool.find? (fun x => x.id == tokenId) = some t := h
  have hpt0 := List.find?_some h0
  have hpt : (t.id == tokenId) = true := hpt0
  have heq : t.id = tokenId := by simpa using hpt
  have e1 : findToken tokenId (report now1 tokenId .success pool) =
      some (applyOutcome now1 .success t) := by
    rw [report_find, h]
    simp [heq]
  have heq2 : (applyOutcome now1 Outcome.success t).id = tokenId := by
    rw [applyOutcome_id]
    exact heq
  have e2 : findToken tokenId
      (report now2 tokenId .success (report now1 tokenId .success pool)) =
        some (applyOutcome now2 .success (applyOutcome now1 .success t)) := by
    rw [report_find, e1]
    simp [heq2]
  refine ⟨⟨_, e1, rfl, rfl, rfl⟩, ⟨_, e2, ?_, rfl, rfl⟩⟩
  show t.request_count + 1 + 1 = t.request_count + 2
  omega

/-- C6: every `create` call whose secret does not match the
subscription-token shape fails with `InvalidCredentialFormat` regardless of
the external live validator (so the rejection precedes any network call and
nothing is persisted), and every API-key-shaped secret (starting
"sk-ant-api") fails that shape check. -/
theorem create_rejects_bad_format (validate : String → Bool)
    (owner freshId : Nat) (nm secret : String) (pool : List Token)
    (h : subscription_token_shape secret = false) :
    create validate owner nm secret freshId pool = .error .InvalidCredentialFormat ∧
      ∀ s : String, api_key_shape s = true → subscription_token_shape s = false := by
  constructor
  · simp [create, h]
  · intro s hs
    unfold api_key_shape at hs
    cases hx : subscription_token_shape s
    · rfl
    · exfalso
      unfold subscription_token_shape at hx
      have h1 : "sk-ant-api".data <+: s.data := List.isPrefixOf_iff_prefix.mp hs
      have h2 : "sk-ant-sid".data <+: s.data := List.isPrefixOf_iff_prefix.mp hx
      rcases h1 with ⟨t1, e1⟩
      rcases h2 with ⟨t2, e2⟩
      have hl : ("sk-ant-api".data : List Char).length =
          ("sk-ant-sid".data : List Char).length := by decide
      have heq : ("sk-ant-api".data : List Char) = "sk-ant-sid".data :=
        (List.append_inj (e1.trans e2.symm) hl).1
      exact absurd heq (by decide)

/-- C7 counterexample: the claim that no field of the returned view equals
the full secret fails when the owner picks the token's human-readable name
to be the secret string itself — `create` stores the name verbatim and
`get_by_owner` returns it, so the view's `name` field equals the full
secret. -/
theorem view_name_equals_secret_counterexample :
    ∃ pool', create (fun _ => true) 7 "sk-ant-sidXY" "sk-ant-sidXY" 0 [] = .ok pool' ∧
      ∃ v, get_by_owner 7 pool' = some v ∧ v.name = "sk-ant-sidXY" := by
  refine ⟨[mkToken 0 7 "sk-ant-sidXY" "sk-ant-sidXY"], ?_,
    toView (mkToken 0 7 "sk-ant-sidXY" "sk-ant-sidXY"), ?_, rfl⟩
  · rfl
  · rfl

/-- C7 (amended): after a successful `create`, `get_by_owner` returns a
view whose `token_preview` is the truncating redaction of the original
secret — a prefix of the secret followed by an ellipsis marker — and that
secret-derived field never equals the full secret; the view stores no
secret field, though the user-chosen `name` is returned verbatim and may
coincide with the secret. -/
theorem create_then_view_redacts (validate : String → Bool)
    (owner freshId : Nat) (nm secret : String) (pool pool' : List Token)
    (hc : create validate owner nm secret freshId pool = .ok pool') :
    ∃ v, get_by_owner owner pool' = some v ∧
      v.token_preview = token_preview_of secret ∧
      secret.data.take 9 <+: v.token_preview.data ∧
      v.token_preview ≠ secret ∧
      v.last_error = none := by
  unfold create at hc
  split_ifs at hc with h1 h2 h3
  rw [Except.ok.injEq] at hc
  subst hc
  have hsub : subscription_token_shape secret = true := h1
  have hfind : pool.find? (fun t => t.user_id == owner) = none := by
    rw [List.find?_eq_none]
    intro x hx hpx
    exact h2 (List.any_eq_true.mpr ⟨x, hx, hpx⟩)
  refine ⟨toView (mkToken freshId owner nm secret), ?_, rfl, ⟨['…'], rfl⟩, ?_, rfl⟩
  · unfold get_by_owner
    rw [List.find?_append, hfind, Option.none_or]
    simp [List.find?, mkToken]
  · intro heq
    have hd : secret.data.take 9 ++ ['…'] = secret.data := congrArg String.data heq
    have hlen2 : min 9 secret.data.length + 1 = secret.data.length := by
      have hl := congrArg List.length hd
      rw [List.length_append, List.length_take] at hl
      simpa using hl
    have hpre : "sk-ant-sid".data <+: secret.data :=
      List.isPrefixOf_iff_prefix.mp hsub
    rcases hpre with ⟨t, ht⟩
    have hlt : ("sk-ant-sid".data).length + t.length = secret.data.length := by
      rw [← List.length_append, ht]
    have h10 : ("sk-ant-sid".data).length = 10 := by decide
    have ht0 : t = [] := List.eq_nil_of_length_eq_zero (by omega)
    subst ht0
    rw [List.append_nil] at ht
    rw [← ht] at hd
    exact absurd hd (by decide)

theorem clamp01_range (x : ℚ) : 0 ≤ clamp01 x ∧ clamp01 x ≤ 1 :=
  ⟨le_max_left 0 _, max_le (by norm_num) (min_le_left 1 x)⟩

/-- C8: `fairness_score` always lies in [0, 1]; an evenly used pool such as
[10, 10, 10] scores exactly 1, and a fully concentrated pool such as
[100, 0, 0] scores below 0.3. -/
theorem fairness_score_properties (counts : List Nat) :
    (0 ≤ fairness_score counts ∧ fairness_score counts ≤ 1) ∧
      fairness_score [10, 10, 10] = 1 ∧
      fairness_score [100, 0, 0] < 3 / 10 := by
  refine ⟨?_, ?_, ?_⟩
  · unfold fairness_score
    split_ifs with h1 h2
    · norm_num
    · norm_num
    · exact clamp01_range _
  · simp only [fairness_score, cvSquared, clamp01, List.map_cons, List.map_nil,
      List.sum_cons, List.sum_nil, List.length_cons, List.length_nil]
    norm_num
  · simp only [fairness_score, cvSquared, clamp01, List.map_cons, List.map_nil,
      List.sum_cons, List.sum_nil, List.length_cons, List.length_nil]
    norm_num

/-- C9: `pool_health` is exhausted exactly when zero tokens are currently
eligible, healthy exactly when at least one active token exists and the
rate-limited fraction is below the 50% threshold, and a pool whose only
token is rate_limited with its reset one hour in the future is exhausted —
never healthy. -/
theorem pool_health_characterization (now : Nat) (pool : List Token)
    (t : Token) (h1 : t.status = .rate_limited)
    (h2 : t.rate_limit_reset_at = some (now + 3600)) :
    (pool_health now pool = .exhausted ↔ list_eligible now pool = []) ∧
      (pool_health now pool = .healthy ↔
        (0 < countActive pool ∧ 2 * countRateLimited pool < pool.length)) ∧
      pool_health now [t] = .exhausted := by
  have hne : eligible now t = false := by
    unfold eligible
    rw [h1, h2]
    simp only [decide_eq_false_iff_not]
    omega
  have helig : list_eligible now [t] = [] := by
    simp [list_eligible, List.filter, hne]
  refine ⟨?_, ?_, ?_⟩
  · unfold pool_health
    split_ifs with he hh
    · simp [he]
    · simp [he]
    · simp [he]
  · unfold pool_health
    split_ifs with he hh
    · constructor
      · intro hcon
        exact absurd hcon (by simp)
      · rintro ⟨ha, _⟩
        exact absurd he (list_eligible_ne_nil_of_active ha)
    · simp [hh]
    · simp [hh]
  · simp [pool_health, helig]

/-- C10 counterexample: a non-ok response whose JSON body carries the
`detail` field `""` is reported with the fallback message, not the detail
string — JavaScript `||` treats the empty string as falsy (api.ts lines
51–53), so the claim's "message is the body's detail string whenever the
body is JSON containing a detail field" fails at this input. -/
theorem apiFetch_empty_detail_counterexample :
    apiFetch ({ status := 500, json := some 0, detail := some "" } : HttpResponse Nat) =
        .apiError "Request failed with status 500" 500 ∧
      ("Request failed with status 500" : String) ≠ "" := by
  constructor
  · rfl
  · decide

/-- C10 (amended): `apiFetch` resolves with the parsed JSON body on an ok
non-204 response, resolves with `undefined` on 204, and on every non-ok
response never resolves: it throws an `ApiError` whose status is the HTTP
status and whose message is the body's `detail` string when the body is
JSON containing a non-empty `detail` field, and otherwise the string
"Request failed with status {status}" (an empty `detail` string is falsy
under JavaScript `||` and also falls back). -/
theorem apiFetch_behavior {α : Type} (r : HttpResponse α) :
    (responseOk r.status = true → r.status ≠ 204 → ∀ v, r.json = some v →
        apiFetch r = .success (some v)) ∧
      (responseOk r.status = true → r.status = 204 → apiFetch r = .success none) ∧
      (responseOk r.status = false →
        apiFetch r = .apiError (errorMessage r.status r.detail) r.status ∧
          (∀ b, apiFetch r ≠ .success b) ∧
          (∀ d, r.detail = some d → d ≠ "" → apiFetch r = .apiError d r.status) ∧
          ((r.detail = none ∨ r.detail = some "") →
            apiFetch r = .apiError (fallbackMessage r.status) r.status)) := by
  refine ⟨?_, ?_, ?_⟩
  · intro hok h204 v hv
    unfold apiFetch
    rw [hok]
    simp [h204, hv]
  · intro hok h204
    unfold apiFetch
    rw [hok]
    simp [h204]
  · intro hok
    have he : apiFetch r = .apiError (errorMessage r.status r.detail) r.status := by
      unfold apiFetch
      rw [hok]
      simp
    refine ⟨he, ?_, ?_, ?_⟩
    · intro b
      rw [he]
      simp
    · intro d hd hne
      rw [he, hd]
      simp [errorMessage, hne]
    · rintro (hd | hd) <;> rw [he, hd] <;> simp [errorMessage]

/-! ## Concrete data for witnesses -/

/-- Concrete active token (last used at time 1). -/
def tokA : Token :=
  { id := 1
    user_id := 10
    name := "A"
    secret := "sk-ant-sidAAAA"
    status := .active
    request_count := 3
    last_used_at := some 1
    rate_limit_reset_at := none
    last_error := none }

/-- Concrete active token (last used at time 2, later than `tokA`). -/
def tokB : Token :=
  { id := 2
    user_id := 20
    name := "B"
    secret := "sk-ant-sidBBBB"
    status := .active
    request_count := 5
    last_used_at := some 2
    rate_limit_reset_at := none
    last_error := none }

/-- Concrete rate-limited token whose reset timestamp (3600 = one hour
after time 0) lies in the future at time 0. -/
def tokFutureRL : Token :=
  { id := 3
    user_id := 30
    name := "C"
    secret := "sk-ant-sidCCCC"
    status := .rate_limited
    request_count := 7
    last_used_at := some 3
    rate_limit_reset_at := some 3600
    last_error := some "rate limit hit" }

/-! ## Witnesses -/

/-- C1 witness: at time 5 the pool [A(last_used=1), B(last_used=2)] has a
non-empty eligible set and rotation returns the token with the oldest
timestamp. -/
theorem acquire_rotation_witness :
    (list_eligible 5 [tokA, tokB] ≠ []) ∧
      ∃ t, acquire 5 [tokA, tokB] none = .ok t ∧
        t ∈ list_eligible 5 [tokA, tokB] ∧
        (∀ u ∈ list_eligible 5 [tokA, tokB],
          lastUsedKey t.last_used_at ≤ lastUsedKey u.last_used_at) ∧
        (∀ u ∈ list_eligible 5 [tokA, tokB], ∀ a b,
          t.last_used_at = some a → u.last_used_at = some b → a ≤ b) ∧
        ((∃ u ∈ list_eligible 5 [tokA, tokB], u.last_used_at = none) →
          t.last_used_at = none) :=
  ⟨by decide, acquire_rotation_picks_oldest 5 [tokA, tokB] (by decide)⟩

/-- C3 witness: reporting success at times 7 then 9 on the token with id 1
in the pool [tokA]. -/
theorem report_success_witness :
    (findToken 1 [tokA] = some tokA) ∧
      ((∃ t1, findToken 1 (report 7 1 .success [tokA]) = some t1 ∧
          t1.request_count = tokA.request_count + 1 ∧
          t1.last_used_at = some 7 ∧ t1.last_error = none) ∧
        ∃ t2, findToken 1 (report 9 1 .success (report 7 1 .success [tokA])) =
            some t2 ∧
          t2.request_count = tokA.request_count + 2 ∧
          t2.last_used_at = some 9 ∧ t2.last_error = none) :=
  ⟨rfl, report_success_updates 7 9 1 [tokA] tokA rfl⟩

/-- C4 witness: the empty pool at time 0. -/
theorem acquire_pool_exhausted_witness :
    (list_eligible 0 ([] : List Token) = []) ∧
      (acquire 0 [] none = .error .PoolExhausted ∧
        pool_health 0 [] = .exhausted ∧
        (∀ ph : PoolHealth, showsPoolNeedsContributors ph = true ↔ ph = .exhausted)) :=
  ⟨rfl, acquire_pool_exhausted 0 [] rfl⟩

/-- C5 witness: explicitly requesting id 1 in the pool [tokA] at time 5. -/
theorem acquire_explicit_witness :
    (findToken 1 [tokA] = some tokA) ∧
      ((eligible 5 tokA = true → acquire 5 [tokA] (some 1) = .ok tokA) ∧
        (eligible 5 tokA = false →
          acquire 5 [tokA] (some 1) = .error .TokenUnavailable)) :=
  ⟨rfl, acquire_explicit_request 5 1 [tokA] tokA rfl⟩

/-- C6 witness: the API-key-shaped secret "sk-ant-api-0123". -/
theorem create_rejects_witness :
    (subscription_token_shape "sk-ant-api-0123" = false) ∧
      (create (fun _ => true) 7 "nm" "sk-ant-api-0123" 0 [] =
          .error .InvalidCredentialFormat ∧
        ∀ s : String, api_key_shape s = true → subscription_token_shape s = false) :=
  ⟨by decide,
    create_rejects_bad_format (fun _ => true) 7 0 "nm" "sk-ant-api-0123" [] (by decide)⟩

/-- C7 witness: creating a 20-character subscription-shaped secret into an
empty pool and reading it back through `get_by_owner`. -/
theorem create_then_view_redacts_witness :
    (create (fun _ => true) 8 "mine" "sk-ant-sid0123456789" 1 [] =
        .ok ([] ++ [mkToken 1 8 "mine" "sk-ant-sid0123456789"])) ∧
      ∃ v, get_by_owner 8 ([] ++ [mkToken 1 8 "mine" "sk-ant-sid0123456789"]) =
          some v ∧
        v.token_preview = token_preview_of "sk-ant-sid0123456789" ∧
        "sk-ant-sid0123456789".data.take 9 <+: v.token_preview.data ∧
        v.token_preview ≠ "sk-ant-sid0123456789" ∧
        v.last_error = none :=
  ⟨rfl, create_then_view_redacts (fun _ => true) 8 1 "mine" "sk-ant-sid0123456789" []
    ([] ++ [mkToken 1 8 "mine" "sk-ant-sid0123456789"]) rfl⟩

/-- C9 witness: a pool whose only token is rate_limited with reset one hour
after time 0. -/
theorem pool_health_witness :
    (tokFutureRL.status = TokenStatus.rate_limited) ∧
      (tokFutureRL.rate_limit_reset_at = some (0 + 3600)) ∧
      ((pool_health 0 [tokFutureRL] = .exhausted ↔
          list_eligible 0 [tokFutureRL] = []) ∧
        (pool_health 0 [tokFutureRL] = .healthy ↔
          (0 < countActive [tokFutureRL] ∧
            2 * countRateLimited [tokFutureRL] < ([tokFutureRL] : List Token).length)) ∧
        pool_health 0 [tokFutureRL] = .exhausted) :=
  ⟨rfl, by decide,
    pool_health_characterization 0 [tokFutureRL] tokFutureRL rfl (by decide)⟩

/-- C10 witness: a 500 response whose JSON body carries the non-empty
detail "boom" is rejected with exactly that message and status. -/
theorem apiFetch_behavior_witness :
    (responseOk 500 = false) ∧
      apiFetch ({ status := 500, json := some 0, detail := some "boom" } :
          HttpResponse Nat) = .apiError "boom" 500 :=
  ⟨rfl,
    ((apiFetch_behavior ({ status := 500, json := some 0, detail := some "boom" } :
        HttpResponse Nat)).2.2 rfl).2.2.1 "boom" rfl (by decide)⟩
